import Mathlib

/-!
Shallow embedding of the `futures` repository: a poll-based task abstraction
(`FutState`, `FutResult`, `FutError`), the primitive task `Done`, the
sequencing combinator `Chain` (from `src/futures/mod.rs`; `Then` in
`src/futures/futures.rs` has the same polling structure), and the two
schedulers `SimpleRunner` and `PollRunner` (from `src/futures/fut_test.rs`).

Rust's `&mut self` methods are modelled as explicit state passing: a poll is a
function from the task state to a result paired with the successor state.
The schedulers are generic over the task type, mirroring `Box<dyn Future>`;
`tid` extracts an identifier used to log `destroy` (cleanup) calls, making the
"cleanup called exactly once" claims observable. The scheduler loops that Rust
runs with `while` are given explicit fuel for the outer loop; the inner loops
are structurally decreasing and need none.
-/

/-- The three poll states, from `enum FutState` in `mod.rs`/`futures.rs`. -/
inductive FutState where
  | Pending
  | Done
  | Waiting
deriving DecidableEq, Repr

/-- Error type from `enum FutError` in `mod.rs` (the copy in `futures.rs`
has only `SleepingUnsupported`; the schedulers construct no other variant). -/
inductive FutError where
  | SleepingUnsupported
  | PolledAfterCompletion
  | CompletedWithoutValue
deriving DecidableEq, Repr

/-- `struct FutResult<T> { state, value }`. -/
structure FutResult (T : Type) where
  state : FutState
  value : Option T
deriving DecidableEq, Repr

/-- `FutResult::pending()`. -/
def FutResult.pending {T : Type} : FutResult T :=
  ⟨FutState.Pending, none⟩

/-- `FutResult::finished(val)`. -/
def FutResult.finished {T : Type} (val : T) : FutResult T :=
  ⟨FutState.Done, some val⟩

/-- `struct Done<T> { res: Option<T> }` from `mod.rs`. -/
structure Done (T : Type) where
  res : Option T
deriving DecidableEq, Repr

/-- `Done::new(val)`. -/
def Done.new {T : Type} (val : T) : Done T :=
  ⟨some val⟩

/-- `Done::poll` from `mod.rs`: `self.res.take().ok_or(PolledAfterCompletion)`
then `Ok(FutResult::finished(value))`. `take` leaves `none` behind either way. -/
def Done.poll {T : Type} : Done T → Except FutError (FutResult T) × Done T
  | ⟨some v⟩ => (Except.ok (FutResult.finished v), ⟨none⟩)
  | ⟨none⟩ => (Except.error FutError.PolledAfterCompletion, ⟨none⟩)

/-- `Done::cleanup` only logs; the state is untouched. -/
def Done.cleanup {T : Type} (d : Done T) : Done T := d

/-- State of a `Done` task after `n` further polls. -/
def Done.stateAfter {T : Type} (d : Done T) : Nat → Done T
  | 0 => d
  | n + 1 => (Done.poll (Done.stateAfter d n)).2

/-- `enum ChainState<F1, F2, Fn>` from `mod.rs`. `σ1`/`σ2` are the state types
of the two inner futures, `α1` the first future's output; `transform` is the
`FnOnce(F1::Output) -> F2`. -/
inductive ChainState (σ1 σ2 α1 : Type) where
  | First (future : σ1) (transform : α1 → σ2)
  | Second (future : σ2)
  | Done

/-- `Chain::poll` from `mod.rs`, generic over the inner futures' poll
functions (`poll1`, `poll2`) and the `From<FutError>` conversion `liftE`.
`mem::replace(&mut self.state, ChainState::Done)` means the state is `Done`
unless a branch writes it back; the `?` on `future.poll()` in the `First`
branch therefore leaves the state `Done` on error. -/
def Chain.poll {σ1 σ2 α1 α2 ε : Type} (liftE : FutError → ε)
    (poll1 : σ1 → Except ε (FutResult α1) × σ1)
    (poll2 : σ2 → Except ε (FutResult α2) × σ2) :
    ChainState σ1 σ2 α1 → Except ε (FutResult α2) × ChainState σ1 σ2 α1
  | ChainState.First future transform =>
    match poll1 future with
    | (Except.error e, _) => (Except.error e, ChainState.Done)
    | (Except.ok r, f') =>
      match r with
      | ⟨FutState.Done, some value⟩ =>
          (Except.ok FutResult.pending, ChainState.Second (transform value))
      | ⟨FutState.Pending, _⟩ =>
          (Except.ok FutResult.pending, ChainState.First f' transform)
      | ⟨FutState.Waiting, _⟩ =>
          (Except.ok ⟨FutState.Waiting, none⟩, ChainState.First f' transform)
      | ⟨FutState.Done, none⟩ =>
          (Except.error (liftE FutError.CompletedWithoutValue), ChainState.Done)
  | ChainState.Second future =>
    match poll2 future with
    | (Except.ok r, f') =>
        (Except.ok r,
          if r.state = FutState.Done then ChainState.Done else ChainState.Second f')
    | (Except.error e, f') => (Except.error e, ChainState.Second f')
  | ChainState.Done =>
    (Except.error (liftE FutError.PolledAfterCompletion), ChainState.Done)

/-- `Chain::cleanup` from `mod.rs`: delegates to whichever inner future the
current variant holds; in the `Done` variant it only logs. -/
def Chain.cleanup {σ1 σ2 α1 : Type} (c1 : σ1 → σ1) (c2 : σ2 → σ2) :
    ChainState σ1 σ2 α1 → ChainState σ1 σ2 α1
  | ChainState.First future transform => ChainState.First (c1 future) transform
  | ChainState.Second future => ChainState.Second (c2 future)
  | ChainState.Done => ChainState.Done

/-- C1: a `Done(v)` task's first poll returns `Ok` of a result in state `Done`
carrying `v` and clears the held value; every subsequent poll (the state after
one or more polls) returns `Err(PolledAfterCompletion)` and stays cleared. -/
theorem done_single_completion {T : Type} (v : T) :
    Done.poll (Done.new v) = (Except.ok (FutResult.finished v), (⟨none⟩ : Done T)) ∧
    ∀ n : Nat,
      Done.poll (Done.stateAfter (Done.new v) (n + 1)) =
        (Except.error FutError.PolledAfterCompletion, (⟨none⟩ : Done T)) := by
  refine ⟨rfl, ?_⟩
  intro n
  have h : ∀ m : Nat, Done.stateAfter (Done.new v) (m + 1) = (⟨none⟩ : Done T) := by
    intro m
    induction m with
    | zero => rfl
    | succ k ih =>
        show (Done.poll (Done.stateAfter (Done.new v) (k + 1))).2 = _
        rw [ih]
        rfl
  rw [h n]
  rfl

/-- C2: a chain in the `First` state whose inner poll returns `Done` carrying
`v` invokes `transform` exactly once with `v` (the new state is
`Second (transform v)`, holding the task the transform produced), and the
chain returns `Ok(Pending)`. The result is the same for every `poll2`, so the
second task is not polled in this call. -/
theorem chain_first_done_transforms {σ1 σ2 α1 α2 ε : Type} (liftE : FutError → ε)
    (poll1 : σ1 → Except ε (FutResult α1) × σ1)
    (poll2 : σ2 → Except ε (FutResult α2) × σ2)
    (f : σ1) (transform : α1 → σ2) (v : α1) (f' : σ1)
    (h : poll1 f = (Except.ok ⟨FutState.Done, some v⟩, f')) :
    Chain.poll liftE poll1 poll2 (ChainState.First f transform) =
      (Except.ok FutResult.pending, ChainState.Second (transform v)) := by
  simp only [Chain.poll]
  rw [h]

/-- Witness for C2 at a concrete input: first future `Done::new(4)`. -/
theorem chain_first_done_transforms_witness :
    Done.poll (Done.new 4) = (Except.ok ⟨FutState.Done, some 4⟩, (⟨none⟩ : Done Nat)) ∧
    @Chain.poll (Done Nat) (Done Nat) Nat Nat FutError (fun e => e) Done.poll Done.poll
        (ChainState.First (Done.new 4) (fun x => Done.new (x + 1))) =
      (Except.ok FutResult.pending, ChainState.Second (Done.new 5)) :=
  ⟨rfl, chain_first_done_transforms (fun e => e) Done.poll Done.poll
    (Done.new 4) (fun x => Done.new (x + 1)) 4 ⟨none⟩ rfl⟩

/-- C6: a chain in the `First` state whose inner poll returns `Ok` in state
`Done` with no value fails with `CompletedWithoutValue`. -/
theorem chain_first_done_no_value {σ1 σ2 α1 α2 ε : Type} (liftE : FutError → ε)
    (poll1 : σ1 → Except ε (FutResult α1) × σ1)
    (poll2 : σ2 → Except ε (FutResult α2) × σ2)
    (f : σ1) (transform : α1 → σ2) (f' : σ1)
    (h : poll1 f = (Except.ok ⟨FutState.Done, none⟩, f')) :
    Chain.poll liftE poll1 poll2 (ChainState.First f transform) =
      (Except.error (liftE FutError.CompletedWithoutValue), ChainState.Done) := by
  simp only [Chain.poll]
  rw [h]

/-- A task whose first poll reports `Done` without a value, used to witness
the `CompletedWithoutValue` branch. -/
def brokenDonePoll : Option Nat → Except FutError (FutResult Nat) × Option Nat
  | _ => (Except.ok ⟨FutState.Done, none⟩, none)

/-- Witness for C6 at a concrete input: an inner task reporting `Done` with
no value. -/
theorem chain_first_done_no_value_witness :
    brokenDonePoll (some 0) = (Except.ok ⟨FutState.Done, none⟩, none) ∧
    @Chain.poll (Option Nat) (Done Nat) Nat Nat FutError (fun e => e)
        brokenDonePoll Done.poll
        (ChainState.First (some 0) (fun x => Done.new x)) =
      (Except.error FutError.CompletedWithoutValue, ChainState.Done) :=
  ⟨rfl, chain_first_done_no_value (fun e => e) brokenDonePoll Done.poll
    (some 0) (fun x => Done.new x) none rfl⟩

/-- C3 counterexample: a chain in the `Second` state holding `Done::new(5)`;
the inner poll returns `Done` carrying `5`, and afterwards the chain's state
is `ChainState.Done` (the `mem::replace`d state is not written back), not
`Second` holding the exhausted task — the combinator does self-transition to
the terminal state. -/
theorem chain_second_state_counterexample :
    (@Chain.poll (Done Nat) (Done Nat) Nat Nat FutError (fun e => e)
        Done.poll Done.poll (ChainState.Second (Done.new 5))).2 =
      ChainState.Done ∧
    ¬ ∃ f : Done Nat,
        (@Chain.poll (Done Nat) (Done Nat) Nat Nat FutError (fun e => e)
            Done.poll Done.poll (ChainState.Second (Done.new 5))).2 =
          ChainState.Second f := by
  refine ⟨rfl, ?_⟩
  rintro ⟨f, h⟩
  rw [show (@Chain.poll (Done Nat) (Done Nat) Nat Nat FutError (fun e => e)
      Done.poll Done.poll (ChainState.Second (Done.new 5))).2 =
      ChainState.Done from rfl] at h
  exact ChainState.noConfusion h

/-- C3 amended: a chain in the `Second` state whose inner poll returns `Ok`
propagates that outcome verbatim; if the outcome's state is `Done` the chain
self-transitions to the terminal `Done` (Finished) state, dropping the
exhausted task, so the next poll fails with `PolledAfterCompletion`; for
non-`Done` outcomes it remains in `Second` holding the polled task. -/
theorem chain_second_done_finishes {σ1 σ2 α1 α2 ε : Type} (liftE : FutError → ε)
    (poll1 : σ1 → Except ε (FutResult α1) × σ1)
    (poll2 : σ2 → Except ε (FutResult α2) × σ2)
    (f : σ2) (r : FutResult α2) (f' : σ2)
    (h : poll2 f = (Except.ok r, f')) :
    Chain.poll liftE poll1 poll2 (ChainState.Second f) =
      (Except.ok r,
        if r.state = FutState.Done then ChainState.Done else ChainState.Second f') ∧
    (r.state = FutState.Done →
      Chain.poll liftE poll1 poll2
          (Chain.poll liftE poll1 poll2 (ChainState.Second f)).2 =
        (Except.error (liftE FutError.PolledAfterCompletion), ChainState.Done)) := by
  have h1 : Chain.poll liftE poll1 poll2 (ChainState.Second f) =
      (Except.ok r,
        if r.state = FutState.Done then ChainState.Done else ChainState.Second f') := by
    simp only [Chain.poll]
    rw [h]
  refine ⟨h1, ?_⟩
  intro hd
  rw [h1]
  simp only [hd, if_pos rfl]
  rfl

/-- Witness for amended C3 at a concrete input: second future `Done::new(7)`. -/
theorem chain_second_done_finishes_witness :
    Done.poll (Done.new 7) = (Except.ok (FutResult.finished 7), (⟨none⟩ : Done Nat)) ∧
    @Chain.poll (Done Nat) (Done Nat) Nat Nat FutError (fun e => e)
        Done.poll Done.poll (ChainState.Second (Done.new 7)) =
      (Except.ok (FutResult.finished 7),
        if (FutResult.finished 7).state = FutState.Done then ChainState.Done
        else ChainState.Second (⟨none⟩ : Done Nat)) :=
  ⟨rfl, (chain_second_done_finishes (fun e => e) Done.poll Done.poll
    (Done.new 7) (FutResult.finished 7) ⟨none⟩ rfl).1⟩

/-- C10: error handling is asymmetric between the chain's two stages. If the
inner poll errors in the `Second` state, the state is restored to `Second`
holding the polled task; if it errors in the `First` state, the `?` early
return leaves the `mem::replace`d `Done` (Finished) state, dropping the first
task and the transform; a subsequent poll then fails with
`PolledAfterCompletion`, and `cleanup` in the `Done` state is a no-op that
calls neither inner cleanup. -/
theorem chain_error_asymmetry {σ1 σ2 α1 α2 ε : Type} (liftE : FutError → ε)
    (poll1 : σ1 → Except ε (FutResult α1) × σ1)
    (poll2 : σ2 → Except ε (FutResult α2) × σ2)
    (f1 : σ1) (f2 : σ2) (transform : α1 → σ2) (e1 e2 : ε) (f1' : σ1) (f2' : σ2)
    (h1 : poll1 f1 = (Except.error e1, f1'))
    (h2 : poll2 f2 = (Except.error e2, f2')) :
    Chain.poll liftE poll1 poll2 (ChainState.Second f2) =
      (Except.error e2, ChainState.Second f2') ∧
    Chain.poll liftE poll1 poll2 (ChainState.First f1 transform) =
      (Except.error e1, ChainState.Done) ∧
    Chain.poll liftE poll1 poll2 (ChainState.Done : ChainState σ1 σ2 α1) =
      (Except.error (liftE FutError.PolledAfterCompletion), ChainState.Done) ∧
    ∀ (c1 : σ1 → σ1) (c2 : σ2 → σ2),
      Chain.cleanup c1 c2 (ChainState.Done : ChainState σ1 σ2 α1) = ChainState.Done := by
  refine ⟨?_, ?_, rfl, fun c1 c2 => rfl⟩
  · simp only [Chain.poll]
    rw [h2]
  · simp only [Chain.poll]
    rw [h1]

/-- A task whose poll always fails with a fixed error, used to witness the
error-propagation branches. -/
def failingPoll (e : FutError) : Option Nat → Except FutError (FutResult Nat) × Option Nat
  | s => (Except.error e, s)

/-- Witness for C10 at a concrete input: both inner tasks error with
`SleepingUnsupported`. -/
theorem chain_error_asymmetry_witness :
    failingPoll FutError.SleepingUnsupported (some 1) =
      (Except.error FutError.SleepingUnsupported, some 1) ∧
    @Chain.poll (Option Nat) (Option Nat) Nat Nat FutError (fun e => e)
        (failingPoll FutError.SleepingUnsupported)
        (failingPoll FutError.SleepingUnsupported)
        (ChainState.First (some 1) (fun x => some x)) =
      (Except.error FutError.SleepingUnsupported, ChainState.Done) :=
  ⟨rfl, (chain_error_asymmetry (fun e => e)
    (failingPoll FutError.SleepingUnsupported)
    (failingPoll FutError.SleepingUnsupported)
    (some 1) (some 2) (fun x => some x)
    FutError.SleepingUnsupported FutError.SleepingUnsupported
    (some 1) (some 2) rfl rfl).2.1⟩

deriving instance DecidableEq for Except

/-- A scripted task: an identifier plus the sequence of results its successive
polls produce. This stands for an arbitrary `Box<dyn Future<Output = usize,
Error = FutError>>` handed to a scheduler: in this single-threaded setting a
task's observable behaviour is exactly its sequence of poll results. -/
structure STask where
  id : Nat
  script : List (Except FutError (FutResult Nat))
deriving DecidableEq, Repr

/-- Poll a scripted task: consume the next scripted result; an exhausted
script answers `PolledAfterCompletion`, matching the task contract. -/
def STask.poll (t : STask) : Except FutError (FutResult Nat) × STask :=
  match t.script with
  | [] => (Except.error FutError.PolledAfterCompletion, t)
  | r :: rest => (r, ⟨t.id, rest⟩)

/-- One full pass of `SimpleRunner::run`'s inner `while i < self.futs.len()`
loop, from `fut_test.rs`. `acc` holds the tasks already passed over (indices
below `i`); `po` is the task's poll, `tid` names the task for the destroy
log. `Pending` advances past the task; `Waiting` returns
`Err(SleepingUnsupported)` with the task still in place; `Done` removes the
task and logs its `destroy`; a poll error propagates via `?` with the task
still in place. Returns the error if any, the remaining queue, and the log. -/
def SimpleRunner.sweep {τ : Type} (po : τ → Except FutError (FutResult Nat) × τ)
    (tid : τ → Nat) :
    List τ → List τ → List Nat → Option FutError × List τ × List Nat
  | acc, [], log => (none, acc, log)
  | acc, f :: rest, log =>
    match po f with
    | (Except.error e, f') => (some e, acc ++ f' :: rest, log)
    | (Except.ok r, f') =>
      match r.state with
      | FutState.Pending => SimpleRunner.sweep po tid (acc ++ [f']) rest log
      | FutState.Waiting =>
          (some FutError.SleepingUnsupported, acc ++ f' :: rest, log)
      | FutState.Done => SimpleRunner.sweep po tid acc rest (log ++ [tid f'])

/-- `SimpleRunner::run` from `fut_test.rs`: `while !self.is_empty()` run one
inner pass; fuel bounds the number of outer iterations (`none` = fuel ran
out). On success or error, also returns the final queue and destroy log. -/
def SimpleRunner.run {τ : Type} (po : τ → Except FutError (FutResult Nat) × τ)
    (tid : τ → Nat) :
    Nat → List τ → List Nat → Option (Except FutError Unit × List τ × List Nat)
  | 0, _, _ => none
  | fuel + 1, futs, log =>
    if futs.isEmpty then some (Except.ok (), futs, log)
    else
      match SimpleRunner.sweep po tid [] futs log with
      | (some e, futs', log') => some (Except.error e, futs', log')
      | (none, futs', log') => SimpleRunner.run po tid fuel futs' log'

/-- `PollRunner`'s three queues, from `fut_test.rs`. -/
structure PollSt (τ : Type) where
  active : List τ
  pending : List τ
  sleeping : List τ
deriving DecidableEq, Repr

/-- `PollRunner::is_empty`. -/
def PollRunner.isEmpty {τ : Type} (st : PollSt τ) : Bool :=
  st.active.isEmpty && st.sleeping.isEmpty && st.pending.isEmpty

/-- `PollRunner::run`'s inner `while let Some(future) = self.active.pop_front()`
loop: poll each task popped from `active`; `Pending` pushes it onto `pending`;
`Waiting` with a value pushes it onto `sleeping`, without a value the task is
dropped; `Done` logs `destroy` and discards the task; a poll error propagates
via `?` immediately, the popped task being dropped and the rest of the queues
left as they are. Returns the error if any, the resulting queues (`active` is
what remains unpolled), and the destroy log. -/
def PollRunner.drainActive {τ : Type} (po : τ → Except FutError (FutResult Nat) × τ)
    (tid : τ → Nat) :
    List τ → List τ → List τ → List Nat → Option FutError × PollSt τ × List Nat
  | [], pending, sleeping, log => (none, ⟨[], pending, sleeping⟩, log)
  | f :: rest, pending, sleeping, log =>
    match po f with
    | (Except.error e, _) => (some e, ⟨rest, pending, sleeping⟩, log)
    | (Except.ok r, f') =>
      match r.state with
      | FutState.Pending =>
          PollRunner.drainActive po tid rest (pending ++ [f']) sleeping log
      | FutState.Waiting =>
          if r.value.isSome then
            PollRunner.drainActive po tid rest pending (sleeping ++ [f']) log
          else
            PollRunner.drainActive po tid rest pending sleeping log
      | FutState.Done =>
          PollRunner.drainActive po tid rest pending sleeping (log ++ [tid f'])

/-- `PollRunner::handle_sleeping_futures`: if `sleeping` is empty, return;
otherwise move every sleeping task to the back of `pending`, emptying
`sleeping`. -/
def PollRunner.handleSleepingFutures {τ : Type} (st : PollSt τ) : PollSt τ :=
  if st.sleeping.isEmpty then st
  else PollSt.mk st.active (st.pending ++ st.sleeping) []

/-- `PollRunner::run` from `fut_test.rs`: while some queue is non-empty, move
all of `pending` to the back of `active`, drain `active`, then handle the
sleeping tasks. Fuel bounds the number of outer iterations (`none` = fuel ran
out). On success or error, also returns the final queues and destroy log. -/
def PollRunner.run {τ : Type} (po : τ → Except FutError (FutResult Nat) × τ)
    (tid : τ → Nat) :
    Nat → PollSt τ → List Nat → Option (Except FutError Unit × PollSt τ × List Nat)
  | 0, _, _ => none
  | fuel + 1, st, log =>
    if PollRunner.isEmpty st then some (Except.ok (), st, log)
    else
      match PollRunner.drainActive po tid (st.active ++ st.pending) [] st.sleeping log with
      | (some e, st', log') => some (Except.error e, st', log')
      | (none, st', log') =>
          PollRunner.run po tid fuel (PollRunner.handleSleepingFutures st') log'

/-- C5: on `SimpleRunner`, a task whose poll returns `Ok` in state `Waiting`
makes the sweep return `Err(SleepingUnsupported)` at once: the tasks after it
(`rest`) are returned verbatim, unpolled and still queued, and no destroy is
logged; `run` then returns that error immediately. -/
theorem simplerunner_fatal_wait {τ : Type}
    (po : τ → Except FutError (FutResult Nat) × τ) (tid : τ → Nat) :
    (∀ (acc rest : List τ) (t t' : τ) (r : FutResult Nat) (log : List Nat),
      po t = (Except.ok r, t') → r.state = FutState.Waiting →
      SimpleRunner.sweep po tid acc (t :: rest) log =
        (some FutError.SleepingUnsupported, acc ++ t' :: rest, log)) ∧
    (∀ (fuel : Nat) (futs futs' : List τ) (log log' : List Nat) (e : FutError),
      futs.isEmpty = false →
      SimpleRunner.sweep po tid [] futs log = (some e, futs', log') →
      SimpleRunner.run po tid (fuel + 1) futs log =
        some (Except.error e, futs', log')) := by
  constructor
  · intro acc rest t t' r log h hr
    obtain ⟨s, val⟩ := r
    simp only at hr
    subst hr
    simp only [SimpleRunner.sweep]
    rw [h]
  · intro fuel futs futs' log log' e hE hsweep
    simp only [SimpleRunner.run, hE, Bool.false_eq_true, if_false]
    rw [hsweep]

/-- Witness for C5: a task that reports `Waiting`, followed by another task;
the sweep and the run both stop with `SleepingUnsupported`, the second task
untouched. -/
theorem simplerunner_fatal_wait_witness :
    STask.poll (STask.mk 1 [Except.ok ⟨FutState.Waiting, none⟩]) =
      (Except.ok ⟨FutState.Waiting, none⟩, STask.mk 1 []) ∧
    SimpleRunner.sweep STask.poll STask.id []
        [STask.mk 1 [Except.ok ⟨FutState.Waiting, none⟩],
         STask.mk 2 [Except.ok (FutResult.finished 9)]] [] =
      (some FutError.SleepingUnsupported,
        [STask.mk 1 [], STask.mk 2 [Except.ok (FutResult.finished 9)]], []) ∧
    SimpleRunner.run STask.poll STask.id 1
        [STask.mk 1 [Except.ok ⟨FutState.Waiting, none⟩],
         STask.mk 2 [Except.ok (FutResult.finished 9)]] [] =
      some (Except.error FutError.SleepingUnsupported,
        [STask.mk 1 [], STask.mk 2 [Except.ok (FutResult.finished 9)]], []) :=
  ⟨rfl,
    (simplerunner_fatal_wait STask.poll STask.id).1 []
      [STask.mk 2 [Except.ok (FutResult.finished 9)]]
      (STask.mk 1 [Except.ok ⟨FutState.Waiting, none⟩]) (STask.mk 1 [])
      ⟨FutState.Waiting, none⟩ [] rfl rfl,
    (simplerunner_fatal_wait STask.poll STask.id).2 0
      [STask.mk 1 [Except.ok ⟨FutState.Waiting, none⟩],
       STask.mk 2 [Except.ok (FutResult.finished 9)]]
      [STask.mk 1 [], STask.mk 2 [Except.ok (FutResult.finished 9)]]
      [] [] FutError.SleepingUnsupported rfl rfl⟩

/-- C8: on `PollRunner`, a task whose poll returns `Ok` in state `Waiting`
with no value is dropped silently: draining the queue with it at the front is
the same as draining without it — the polled task is put in no queue, never
polled again, and no destroy (cleanup) is logged for it. -/
theorem pollrunner_drops_waiting_no_value {τ : Type}
    (po : τ → Except FutError (FutResult Nat) × τ) (tid : τ → Nat) (t t' : τ)
    (hp : po t = (Except.ok ⟨FutState.Waiting, none⟩, t')) :
    ∀ (rest pending sleeping : List τ) (log : List Nat),
      PollRunner.drainActive po tid (t :: rest) pending sleeping log =
        PollRunner.drainActive po tid rest pending sleeping log := by
  intro rest pending sleeping log
  simp only [PollRunner.drainActive]
  rw [hp]
  rfl

/-- Witness for C8: a scripted task reporting `Waiting` with no value ahead
of a `Done` task; the drain result is as if the waiting task were absent. -/
theorem pollrunner_drops_waiting_no_value_witness :
    STask.poll (STask.mk 3 [Except.ok ⟨FutState.Waiting, none⟩]) =
      (Except.ok ⟨FutState.Waiting, none⟩, STask.mk 3 []) ∧
    PollRunner.drainActive STask.poll STask.id
        [STask.mk 3 [Except.ok ⟨FutState.Waiting, none⟩],
         STask.mk 4 [Except.ok (FutResult.finished 8)]] [] [] [] =
      PollRunner.drainActive STask.poll STask.id
        [STask.mk 4 [Except.ok (FutResult.finished 8)]] [] [] [] :=
  ⟨rfl,
    pollrunner_drops_waiting_no_value STask.poll STask.id
      (STask.mk 3 [Except.ok ⟨FutState.Waiting, none⟩]) (STask.mk 3 []) rfl
      [STask.mk 4 [Except.ok (FutResult.finished 8)]] [] [] []⟩

/-- C9: on `PollRunner`, a task whose poll returns an error makes the drain
stop at once with that error: the tasks after it stay in `active`, `pending`
and `sleeping` are returned as accumulated, and the destroy log is unchanged
(no cleanup for the errored task or for any task still in flight); `run` then
returns that error immediately. -/
theorem pollrunner_error_aborts {τ : Type}
    (po : τ → Except FutError (FutResult Nat) × τ) (tid : τ → Nat) :
    (∀ (t t' : τ) (e : FutError) (rest pending sleeping : List τ) (log : List Nat),
      po t = (Except.error e, t') →
      PollRunner.drainActive po tid (t :: rest) pending sleeping log =
        (some e, PollSt.mk rest pending sleeping, log)) ∧
    (∀ (fuel : Nat) (st st' : PollSt τ) (log log' : List Nat) (e : FutError),
      PollRunner.isEmpty st = false →
      PollRunner.drainActive po tid (st.active ++ st.pending) [] st.sleeping log =
        (some e, st', log') →
      PollRunner.run po tid (fuel + 1) st log =
        some (Except.error e, st', log')) := by
  constructor
  · intro t t' e rest pending sleeping log hp
    simp only [PollRunner.drainActive]
    rw [hp]
  · intro fuel st st' log log' e hE hdrain
    simp only [PollRunner.run, hE, Bool.false_eq_true, if_false]
    rw [hdrain]

/-- Witness for C9: the first scripted task errors with
`PolledAfterCompletion`; the run aborts with that error, the second task left
queued in `active`, the log empty. -/
theorem pollrunner_error_aborts_witness :
    STask.poll (STask.mk 5 [Except.error FutError.PolledAfterCompletion]) =
      (Except.error FutError.PolledAfterCompletion, STask.mk 5 []) ∧
    PollRunner.isEmpty
      (PollSt.mk ([] : List STask)
        [STask.mk 5 [Except.error FutError.PolledAfterCompletion],
         STask.mk 6 [Except.ok (FutResult.finished 7)]] []) = false ∧
    PollRunner.run STask.poll STask.id 1
        (PollSt.mk []
          [STask.mk 5 [Except.error FutError.PolledAfterCompletion],
           STask.mk 6 [Except.ok (FutResult.finished 7)]] []) [] =
      some (Except.error FutError.PolledAfterCompletion,
        PollSt.mk [STask.mk 6 [Except.ok (FutResult.finished 7)]] [] [], []) :=
  ⟨rfl, rfl,
    (pollrunner_error_aborts STask.poll STask.id).2 0
      (PollSt.mk []
        [STask.mk 5 [Except.error FutError.PolledAfterCompletion],
         STask.mk 6 [Except.ok (FutResult.finished 7)]] [])
      (PollSt.mk [STask.mk 6 [Except.ok (FutResult.finished 7)]] [] [])
      [] [] FutError.PolledAfterCompletion rfl rfl⟩

/-- Draining a queue of tasks whose next poll each reports `Done` with a
value destroys each in order and touches no other queue. -/
theorem drainActive_done_only (ts : List STask) :
    ∀ (pending sleeping : List STask) (log : List Nat),
      (∀ t ∈ ts, ∃ v rest, t.script = Except.ok (FutResult.finished v) :: rest) →
      PollRunner.drainActive STask.poll STask.id ts pending sleeping log =
        (none, PollSt.mk [] pending sleeping, log ++ ts.map STask.id) := by
  induction ts with
  | nil =>
      intro pending sleeping log _
      simp [PollRunner.drainActive]
  | cons t ts ih =>
      intro pending sleeping log h
      obtain ⟨v, rest, hs⟩ := h t (List.mem_cons_self t ts)
      have hpoll : STask.poll t = (Except.ok (FutResult.finished v), ⟨t.id, rest⟩) := by
        simp only [STask.poll, hs]
      simp only [PollRunner.drainActive]
      rw [hpoll]
      show PollRunner.drainActive STask.poll STask.id ts pending sleeping
          (log ++ [STask.id ⟨t.id, rest⟩]) = _
      rw [ih pending sleeping (log ++ [STask.id ⟨t.id, rest⟩])
        (fun u hu => h u (List.mem_cons_of_mem t hu))]
      simp [STask.id, List.append_assoc]

/-- C4: scheduling any list of tasks whose (first) poll reports `Done` with a
value on `PollRunner` makes `run()` terminate within the first sweep (fuel 2
suffices, independent of N), return `Ok(())` with all queues empty, and log
exactly one destroy (cleanup) per task, in order. -/
theorem pollrunner_done_only_converges (ts : List STask)
    (h : ∀ t ∈ ts, ∃ v rest, t.script = Except.ok (FutResult.finished v) :: rest) :
    PollRunner.run STask.poll STask.id 2 (PollSt.mk [] ts []) [] =
      some (Except.ok (), PollSt.mk [] [] [], ts.map STask.id) := by
  cases ts with
  | nil => rfl
  | cons t ts =>
      simp only [PollRunner.run, PollRunner.isEmpty]
      rw [show (([] : List STask) ++ t :: ts) = t :: ts from rfl,
        drainActive_done_only (t :: ts) [] [] [] h]
      simp [PollRunner.handleSleepingFutures, PollRunner.run, PollRunner.isEmpty]

/-- Witness for C4: five `Done`-only tasks with arbitrary values; the run
returns `Ok(())` with empty queues, every task destroyed exactly once. -/
theorem pollrunner_done_only_converges_witness :
    PollRunner.run STask.poll STask.id 2
        (PollSt.mk []
          [STask.mk 1 [Except.ok (FutResult.finished 11)],
           STask.mk 2 [Except.ok (FutResult.finished 22)],
           STask.mk 3 [Except.ok (FutResult.finished 33)],
           STask.mk 4 [Except.ok (FutResult.finished 44)],
           STask.mk 5 [Except.ok (FutResult.finished 55)]] []) [] =
      some (Except.ok (), PollSt.mk [] [] [], [1, 2, 3, 4, 5]) :=
  pollrunner_done_only_converges
    [STask.mk 1 [Except.ok (FutResult.finished 11)],
     STask.mk 2 [Except.ok (FutResult.finished 22)],
     STask.mk 3 [Except.ok (FutResult.finished 33)],
     STask.mk 4 [Except.ok (FutResult.finished 44)],
     STask.mk 5 [Except.ok (FutResult.finished 55)]]
    (by
      intro t ht
      fin_cases ht
      · exact ⟨11, [], rfl⟩
      · exact ⟨22, [], rfl⟩
      · exact ⟨33, [], rfl⟩
      · exact ⟨44, [], rfl⟩
      · exact ⟨55, [], rfl⟩)

/-- C7: a task whose first poll reports `Waiting` with a value and whose
second reports `Done`: the first sweep moves it to `sleeping` (first
conjunct); `handle_sleeping_futures` moves every sleeping task back into
`pending` unconditionally, leaving `sleeping` empty and `active` untouched
(second conjunct); and `run` reaches `Done` with the destroy (cleanup) logged
within two sweeps — fuel 3 covers the two sweeps plus the final emptiness
check (third conjunct). -/
theorem pollrunner_sleep_drain_cycle (w d i : Nat) :
    PollRunner.drainActive STask.poll STask.id
        [STask.mk i [Except.ok ⟨FutState.Waiting, some w⟩,
                     Except.ok (FutResult.finished d)]] [] [] [] =
      (none, PollSt.mk [] []
        [STask.mk i [Except.ok (FutResult.finished d)]], []) ∧
    (∀ (st : PollSt STask),
      (PollRunner.handleSleepingFutures st).pending = st.pending ++ st.sleeping ∧
      (PollRunner.handleSleepingFutures st).sleeping = [] ∧
      (PollRunner.handleSleepingFutures st).active = st.active) ∧
    PollRunner.run STask.poll STask.id 3
        (PollSt.mk []
          [STask.mk i [Except.ok ⟨FutState.Waiting, some w⟩,
                       Except.ok (FutResult.finished d)]] []) [] =
      some (Except.ok (), PollSt.mk [] [] [], [i]) := by
  refine ⟨rfl, ?_, rfl⟩
  intro st
  obtain ⟨a, p, s⟩ := st
  cases s with
  | nil => simp [PollRunner.handleSleepingFutures]
  | cons x xs => simp [PollRunner.handleSleepingFutures]
